import Mathlib

/-!
Verification of the PM-logger plugin (`pml.py`).

The plugin keeps four SQL tables (monitored users, dialog snapshot,
temporary users with an expiry timestamp, and a message-correlation map)
plus a small key-value store of string "global variables" for its toggles.
We embed the tables as lists of rows, the key-value reads as
`Option String` arguments (the stored value, `none` when unset), and the
SQLAlchemy calls as pure functions.  Two storage-level failure modes are
represented explicitly, because the Python propagates them as exceptions:

* inserting a row whose primary key already exists raises an
  `IntegrityError` on commit (`SESSION.add` + `SESSION.commit`), and
* `Query.one_or_none()` raises `MultipleResultsFound` when more than one
  row matches.

Time is modelled by passing the current POSIX second `now` explicitly; a
handler run is modelled at a frozen instant (the Python reads
`datetime.utcnow()` a few microseconds apart inside one handler).

External I/O is modelled by its observable result: the forward call of the
incoming handler either returns the id of the forwarded message
(`some fwdId`) or raises (`none`, caught by the handler's `try`), and the
notification send of the deletion handler succeeds or raises according to
the `sendOk` oracle (the Python catches the failure and only logs it, so
nothing but the produced notification lists depends on it).
-/

namespace PML

/-- Storage-layer exceptions that the Python lets escape from the helper
functions: a primary-key violation on insert, and
`MultipleResultsFound` from `one_or_none()`. -/
inductive DbError where
  | integrityError
  | multipleResultsFound
  deriving DecidableEq

/-- A row of table `pml_temp_users` (composite primary key
`(user_id, expiry)`). -/
structure TempRow where
  userId : Int
  expiry : Int
  deriving DecidableEq

/-- A row of table `pml_message_map` (primary key `(chat_id, message_id)`,
payload `logger_message_id`). -/
structure MapRow where
  chatId : Int
  messageId : Int
  loggerMessageId : Int
  deriving DecidableEq

/-- The four tables the plugin creates: `pml_users`, `pml_dialogs`,
`pml_temp_users` and `pml_message_map`. -/
structure Db where
  users : List Int
  dialogs : List Int
  tempUsers : List TempRow
  messageMap : List MapRow
  deriving DecidableEq

/-- The exact string the toggles compare against. -/
def falseLit : String := "false"

/-- The string written by the `on` commands. -/
def trueLit : String := "true"

/-- `_is_pml_enabled`: `val != "false" if val is not None else False`,
where `val` is the stored global variable `PML` (`none` = unset). -/
def _is_pml_enabled : Option String → Bool
  | none => false
  | some v => v != falseLit

/-- `_is_sdp_enabled`: `val != "false" if val is not None else False`,
where `val` is the stored global variable `SDP`. -/
def _is_sdp_enabled : Option String → Bool
  | none => false
  | some v => v != falseLit

/-- Digit run of Python `int()`: accumulate decimal digits, failing on any
other character (Python then raises `ValueError`). -/
def pyParseDigits : List Char → Nat → Option Nat
  | [], acc => some acc
  | c :: cs, acc => if c.isDigit then pyParseDigits cs (10 * acc + (c.toNat - 48)) else none

/-- Python `int()` on an optional-sign digit string — the only shape the
plugin ever stores in `PML_TIME` (`str(minutes)` with `minutes` matched by
`\d+`). -/
def pyParseInt : String → Option Int
  | s =>
    match s.data with
    | [] => none
    | c :: cs =>
      if c = '-' then
        match cs with
        | [] => none
        | _ => (pyParseDigits cs 0).map (fun n => -(n : Int))
      else (pyParseDigits (c :: cs) 0).map (fun n => (n : Int))

/-- `_get_pml_time`: `int(val)` of the stored `PML_TIME`, with `0` for an
unset variable or a `ValueError`. -/
def _get_pml_time : Option String → Int
  | none => 0
  | some v => (pyParseInt v).getD 0

/-- `get_all_monitored_users`: all ids of table `pml_users`. -/
def get_all_monitored_users (db : Db) : List Int :=
  db.users

/-- `add_monitored_user`: insert the id unless a row for it already exists.
The Python function returns `None` — it reports nothing; we embed the
returned value as `(none : Option Bool)` so that statements can compare it
with a would-be changed flag. -/
def add_monitored_user (db : Db) (userId : Int) : Option Bool × Db :=
  (none,
    if db.users.contains userId then db
    else { db with users := db.users ++ [userId] })

/-- `remove_monitored_user`: delete the first row matching the id, if any.
Returns `None` in Python, embedded as `(none : Option Bool)` as above. -/
def remove_monitored_user (db : Db) (userId : Int) : Option Bool × Db :=
  (none, { db with users := db.users.erase userId })

/-- `reset_dialogs`: clear `pml_dialogs` and insert the given ids. -/
def reset_dialogs (db : Db) (userIds : List Int) : Db :=
  { db with dialogs := userIds }

/-- `is_known_dialog`: `one_or_none() is not None` on `pml_dialogs`
filtered by the id.  The id is the table's primary key, so at most one
row can match and `one_or_none` cannot raise here. -/
def is_known_dialog (db : Db) (userId : Int) : Bool :=
  db.dialogs.contains userId

/-- `add_temp_user`: delete every `pml_temp_users` row of this user, then
insert `(user_id, expiry)`. -/
def add_temp_user (db : Db) (userId expiry : Int) : Db :=
  { db with tempUsers :=
      db.tempUsers.filter (fun r => r.userId != userId) ++ [⟨userId, expiry⟩] }

/-- `is_temp_user`: first delete every row with `expiry < now`, then run
`one_or_none()` on the rows of the user.  The composite primary key
`(user_id, expiry)` lets the table hold two rows for one user, in which
case `one_or_none` raises `MultipleResultsFound`; the returned `Db` is the
state after the purge. -/
def is_temp_user (db : Db) (userId now : Int) : Except DbError (Bool × Db) :=
  let purged := db.tempUsers.filter (fun r => !decide (r.expiry < now))
  match purged.filter (fun r => r.userId == userId) with
  | [] => .ok (false, { db with tempUsers := purged })
  | [_] => .ok (true, { db with tempUsers := purged })
  | _ => .error .multipleResultsFound

/-- `get_temp_expiry`: expiry of the first row of the user, if any. -/
def get_temp_expiry (db : Db) (userId : Int) : Option Int :=
  (db.tempUsers.find? (fun r => r.userId == userId)).map (·.expiry)

/-- Whether `pml_message_map` already holds a row with primary key
`(chat_id, message_id)`. -/
def hasMapKey (rows : List MapRow) (chatId messageId : Int) : Bool :=
  rows.any (fun r => r.chatId == chatId && r.messageId == messageId)

/-- `add_message_mapping`: `SESSION.add` + `SESSION.commit` of a fresh row.
The table's primary key is `(chat_id, message_id)`, so committing a second
row with the same key violates the constraint and raises an
`IntegrityError`; there is no overwrite path in the Python. -/
def add_message_mapping (db : Db) (chatId messageId loggerId : Int) :
    Except DbError Db :=
  if hasMapKey db.messageMap chatId messageId then .error .integrityError
  else .ok { db with messageMap := db.messageMap ++ [⟨chatId, messageId, loggerId⟩] }

/-- `get_logger_message_id`: `one_or_none()` on the rows with the given
key, returning the stored logger id or `None`. -/
def get_logger_message_id (db : Db) (chatId messageId : Int) :
    Except DbError (Option Int) :=
  match db.messageMap.filter (fun r => r.chatId == chatId && r.messageId == messageId) with
  | [] => .ok none
  | [r] => .ok (some r.loggerMessageId)
  | _ => .error .multipleResultsFound

/-- `remove_message_mapping`: delete every row with the given key. -/
def remove_message_mapping (db : Db) (chatId messageId : Int) : Db :=
  { db with messageMap :=
      db.messageMap.filter (fun r => !(r.chatId == chatId && r.messageId == messageId)) }

/-- Python `str.strip()` on the ASCII whitespace the plugin's texts use. -/
def pyStrip (s : String) : String :=
  ⟨((s.data.dropWhile Char.isWhitespace).reverse.dropWhile Char.isWhitespace).reverse⟩

/-- `text.startswith(('.', '/', '!', '#'))` — all four alternatives are
single characters, so this is a test on the first character. -/
def startsWithCmdChar (s : String) : Bool :=
  match s.data with
  | [] => false
  | c :: _ => c == '.' || c == '/' || c == '!' || c == '#'

/-- `_add_sdp_word`: strip the word, refuse the empty string and
duplicates, else append; returns whether the list changed. -/
def _add_sdp_word (words : List String) (word : String) : Bool × List String :=
  let w := pyStrip word
  if w == "" then (false, words)
  else if words.contains w then (false, words)
  else (true, words ++ [w])

/-- `_remove_sdp_word`: strip the word and remove its first occurrence;
returns whether the list changed. -/
def _remove_sdp_word (words : List String) (word : String) : Bool × List String :=
  let w := pyStrip word
  if words.contains w then (true, words.erase w) else (false, words)

/-- Outcome of `_pml_incoming_handler`: the state it leaves behind and
whether it invoked the forward call (`should_log` was true). -/
structure IncomingResult where
  db : Db
  forwarded : Bool
  deriving DecidableEq

/-- The `try` block at the end of `_pml_incoming_handler`: forward the
message, then `add_message_mapping(user_id, message.id, fwd.id)`.
`fwdResult` is the observable outcome of the forward call — `none` when it
raised (the `except` swallows the error and no mapping is recorded), and
`some fwdId` on success.  An `IntegrityError` from the mapping insert is
caught by the same `except`, leaving the store as it was. -/
def pml_record_forward (db : Db) (userId msgId : Int) (fwdResult : Option Int) :
    IncomingResult :=
  match fwdResult with
  | none => ⟨db, true⟩
  | some fwdId =>
    match add_message_mapping db userId msgId fwdId with
    | .ok db2 => ⟨db2, true⟩
    | .error _ => ⟨db, true⟩

/-- `_pml_incoming_handler`.  Arguments: the stored `PML` and `PML_TIME`
variables, `Config.PM_LOGGER_GROUP_ID`, the event fields
(`is_private`, `sender_id`, `message.id`), the current POSIX second, the
forward outcome, and the store.  Faithful points: the explicit-monitoring
test comes first; the window branch short-circuits
`not is_known_dialog(u) and not is_temp_user(u)` and then re-evaluates
`is_temp_user(u)` in the `elif`, each call purging expired rows; the
temporary expiry is `now + 60 * pml_time`. -/
def pml_incoming_handler (pmlVar pmlTimeVar : Option String) (loggerGroupId : Int)
    (isPrivate : Bool) (senderId : Option Int) (msgId now : Int)
    (fwdResult : Option Int) (db : Db) : Except DbError IncomingResult :=
  if !isPrivate then .ok ⟨db, false⟩
  else match senderId with
  | none => .ok ⟨db, false⟩
  | some userId =>
    if !(_is_pml_enabled pmlVar) || loggerGroupId == -100 then .ok ⟨db, false⟩
    else if (get_all_monitored_users db).contains userId then
      .ok (pml_record_forward db userId msgId fwdResult)
    else if 0 < _get_pml_time pmlTimeVar then
      if !(is_known_dialog db userId) then
        match is_temp_user db userId now with
        | .error e => .error e
        | .ok (isTemp1, db1) =>
          if !isTemp1 then
            .ok (pml_record_forward
              (add_temp_user db1 userId (now + 60 * _get_pml_time pmlTimeVar))
              userId msgId fwdResult)
          else
            match is_temp_user db1 userId now with
            | .error e => .error e
            | .ok (isTemp2, db2) =>
              if isTemp2 then .ok (pml_record_forward db2 userId msgId fwdResult)
              else .ok ⟨db2, false⟩
      else
        match is_temp_user db userId now with
        | .error e => .error e
        | .ok (isTemp2, db2) =>
          if isTemp2 then .ok (pml_record_forward db2 userId msgId fwdResult)
          else .ok ⟨db2, false⟩
    else .ok ⟨db, false⟩

/-- Outcome of `_pml_deleted_handler`: the final state, the logger ids a
notification was attempted for (`send_message` was called with
`reply_to=logger_id`), and those whose send succeeded (a raising send is
caught and only logged). -/
structure DeletedResult where
  db : Db
  attempts : List Int
  delivered : List Int
  deriving DecidableEq

/-- One iteration of the `for msg_id in event.deleted_ids` loop:
`get_logger_message_id` (its `MultipleResultsFound` would propagate and
abort the loop — it is outside any `try`), then the Python truthiness test
`if logger_id:` — skipping both a missing row and a stored id `0` — and on
success a notification attempt followed by `remove_message_mapping`. -/
def pml_deleted_step (chatId : Int) (sendOk : Int → Bool) (acc : DeletedResult)
    (msgId : Int) : Except DbError DeletedResult :=
  match get_logger_message_id acc.db chatId msgId with
  | .error e => .error e
  | .ok none => .ok acc
  | .ok (some loggerId) =>
    if loggerId == 0 then .ok acc
    else
      .ok ⟨remove_message_mapping acc.db chatId msgId,
        acc.attempts ++ [loggerId],
        acc.delivered ++ (if sendOk msgId then [loggerId] else [])⟩

/-- The deletion loop over the event's ids, in delivery order. -/
def pml_deleted_loop (chatId : Int) (sendOk : Int → Bool) :
    List Int → DeletedResult → Except DbError DeletedResult
  | [], acc => .ok acc
  | msgId :: rest, acc =>
    match pml_deleted_step chatId sendOk acc msgId with
    | .error e => .error e
    | .ok acc2 => pml_deleted_loop chatId sendOk rest acc2

/-- `_pml_deleted_handler`: a full no-op when the `PML` toggle is off or
`Config.PM_LOGGER_GROUP_ID == -100`, else the loop over
`event.deleted_ids`. -/
def pml_deleted_handler (pmlVar : Option String) (loggerGroupId chatId : Int)
    (deletedIds : List Int) (sendOk : Int → Bool) (db : Db) :
    Except DbError DeletedResult :=
  if !(_is_pml_enabled pmlVar) || loggerGroupId == -100 then .ok ⟨db, [], []⟩
  else pml_deleted_loop chatId sendOk deletedIds ⟨db, [], []⟩

/-- `_sdp_manual_handler`.  `sdpToggle` is the stored `SDP` variable — the
handler never reads it (capture is attempted regardless of the toggle);
`rawText` is `event.raw_text or ""`; `words` is the stored trigger-word
list; `replyFetched` is whether `get_reply_message()` returned a message
(instead of `None` or raising).  The result is whether
`_save_self_destruct_media` was invoked on the replied-to message. -/
def sdp_manual_handler (sdpToggle : Option String) (isReply : Bool)
    (rawText : String) (words : List String) (replyFetched : Bool) : Bool :=
  if !isReply then false
  else
    let text := pyStrip rawText
    if text == "" then false
    else if startsWithCmdChar text then false
    else if words.isEmpty then false
    else if !(words.contains text) then false
    else if !replyFetched then false
    else true

/-- The trigger word of Scenario D. -/
def saveLit : String := "save"

/-- The non-matching reply text of Scenario D. -/
def savePleaseLit : String := "save please"

/-- The string literal the scenarios store in `PML_TIME` for a ten-minute
window. -/
def tenLit : String := "10"

/-- Observation (used only in theorem statements): the rows of a given
user in the temporary table. -/
def tempRowsFor (rows : List TempRow) (userId : Int) : List TempRow :=
  rows.filter (fun r => r.userId == userId)

/-- Invariant of `pml_temp_users` as maintained by `add_temp_user`:
no two rows share a user id. -/
def OnePerUser (rows : List TempRow) : Prop :=
  rows.Pairwise (fun a b => a.userId ≠ b.userId)

/-- Invariant of `pml_message_map` as maintained by `add_message_mapping`:
no two rows share the primary key `(chat_id, message_id)`. -/
def UniqueMapKeys (rows : List MapRow) : Prop :=
  rows.Pairwise (fun a b => ¬(a.chatId = b.chatId ∧ a.messageId = b.messageId))

instance (rows : List TempRow) : Decidable (OnePerUser rows) := by
  unfold OnePerUser; infer_instance

instance (rows : List MapRow) : Decidable (UniqueMapKeys rows) := by
  unfold UniqueMapKeys; infer_instance

/-- Observation (used only in theorem statements): the notification the
deletion handler would attempt for one deleted id against a fixed starting
state — the stored logger id when a row exists and is nonzero, else
nothing. -/
def deletionOutcome (db : Db) (chatId msgId : Int) : Option Int :=
  match get_logger_message_id db chatId msgId with
  | .ok (some l) => if l == 0 then none else some l
  | _ => none

/-- Observation (used only in theorem statements): the correlation rows
that survive a deletion event — every row keyed by the event's chat and
one of its ids whose stored logger id is nonzero is dropped. -/
def survivingMap (rows : List MapRow) (chatId : Int) (ids : List Int) : List MapRow :=
  rows.filter (fun r =>
    !(r.chatId == chatId && ids.contains r.messageId && r.loggerMessageId != 0))

/-- Observation (used only in theorem statements): the notification the
deletion handler would deliver for one deleted id — the attempted one,
kept only when its send succeeds. -/
def deliveredOutcome (db : Db) (chatId : Int) (sendOk : Int → Bool) (msgId : Int) :
    Option Int :=
  match deletionOutcome db chatId msgId with
  | some l => if sendOk msgId then some l else none
  | none => none

/-! ## Helper lemmas -/

theorem filter_congr_on {α : Type} (p q : α → Bool) (l : List α)
    (h : ∀ x ∈ l, p x = q x) : l.filter p = l.filter q := by
  induction l with
  | nil => rfl
  | cons a t ih =>
    have ha := h a (List.mem_cons_self a t)
    have ht : ∀ x ∈ t, p x = q x := fun x hx => h x (List.mem_cons_of_mem a hx)
    simp [List.filter_cons, ha, ih ht]

theorem filterMap_congr_on {α β : Type} (f g : α → Option β) (l : List α)
    (h : ∀ x ∈ l, f x = g x) : l.filterMap f = l.filterMap g := by
  induction l with
  | nil => rfl
  | cons a t ih =>
    have ha := h a (List.mem_cons_self a t)
    have ht : ∀ x ∈ t, f x = g x := fun x hx => h x (List.mem_cons_of_mem a hx)
    simp [List.filterMap_cons, ha, ih ht]

theorem onePerUser_filter (rows : List TempRow) (p : TempRow → Bool)
    (h : OnePerUser rows) : OnePerUser (rows.filter p) :=
  List.Pairwise.sublist (List.filter_sublist rows) h

/-- After dropping every row of `uid`, no row of `uid` remains. -/
theorem filter_userId_of_filter_ne (rows : List TempRow) (uid : Int) :
    (rows.filter (fun r => r.userId != uid)).filter (fun r => r.userId == uid) = [] := by
  induction rows with
  | nil => rfl
  | cons a l ih =>
    by_cases h : a.userId = uid <;>
      simp [List.filter_cons, h, ih]

/-- Dropping the rows of `uid` does not change the rows of another user. -/
theorem filter_userId_of_filter_ne_other (rows : List TempRow) (uid v : Int)
    (hv : v ≠ uid) :
    (rows.filter (fun r => r.userId != uid)).filter (fun r => r.userId == v)
      = rows.filter (fun r => r.userId == v) := by
  induction rows with
  | nil => rfl
  | cons a l ih =>
    by_cases h : a.userId = uid
    · have hav : (a.userId == v) = false := by
        rw [h]; exact beq_eq_false_iff_ne.mpr (Ne.symm hv)
      simp [List.filter_cons, h, hav, ih, Ne.symm hv]
    · by_cases h2 : a.userId = v <;> simp [List.filter_cons, h, h2, ih, hv]

/-- Zeta-expanded shape of `is_temp_user`, for rewriting the scrutinee. -/
theorem is_temp_user_eq (db : Db) (uid now : Int) :
    is_temp_user db uid now =
      match (db.tempUsers.filter (fun r => !decide (r.expiry < now))).filter
          (fun r => r.userId == uid) with
      | [] => .ok (false,
          { db with tempUsers := db.tempUsers.filter (fun r => !decide (r.expiry < now)) })
      | [_] => .ok (true,
          { db with tempUsers := db.tempUsers.filter (fun r => !decide (r.expiry < now)) })
      | _ => .error .multipleResultsFound := rfl

/-- Under the one-row-per-user invariant, the rows of a single user form
the empty list or a singleton. -/
theorem onePerUser_userId_cases (l : List TempRow) (uid : Int) (h : OnePerUser l) :
    l.filter (fun r => r.userId == uid) = [] ∨
    ∃ r, l.filter (fun r => r.userId == uid) = [r] := by
  induction l with
  | nil => exact Or.inl rfl
  | cons a t ih =>
    obtain ⟨ha, ht⟩ := List.pairwise_cons.mp h
    by_cases hh : a.userId = uid
    · right
      refine ⟨a, ?_⟩
      have hnil : t.filter (fun r => r.userId == uid) = [] := by
        refine List.filter_eq_nil_iff.mpr ?_
        intro r hr
        have : a.userId ≠ r.userId := ha r hr
        simp [hh ▸ this.symm]
      simp [List.filter_cons, hh, hnil]
    · rcases ih ht with h0 | ⟨r, hr⟩
      · exact Or.inl (by simp [List.filter_cons, hh, h0])
      · exact Or.inr ⟨r, by simp [List.filter_cons, hh, hr]⟩

theorem uniqueMapKeys_filter (rows : List MapRow) (p : MapRow → Bool)
    (h : UniqueMapKeys rows) : UniqueMapKeys (rows.filter p) :=
  List.Pairwise.sublist (List.filter_sublist rows) h

/-- The boolean key test, decided false. -/
theorem key_beq_false {a : MapRow} {c m : Int}
    (h : ¬(a.chatId = c ∧ a.messageId = m)) :
    (a.chatId == c && a.messageId == m) = false := by
  cases h1 : a.chatId == c with
  | false => simp
  | true =>
    cases h2 : a.messageId == m with
    | false => simp [h2]
    | true => exact absurd ⟨eq_of_beq h1, eq_of_beq h2⟩ h

/-- The boolean key test, decided true. -/
theorem key_beq_true {a : MapRow} {c m : Int}
    (h1 : a.chatId = c) (h2 : a.messageId = m) :
    (a.chatId == c && a.messageId == m) = true := by
  simp [h1, h2]

/-- Under key uniqueness, the rows of one `(chat, message)` key form the
empty list or a singleton. -/
theorem uniqueMapKeys_key_cases (l : List MapRow) (c m : Int) (h : UniqueMapKeys l) :
    l.filter (fun r => r.chatId == c && r.messageId == m) = [] ∨
    ∃ r, l.filter (fun r => r.chatId == c && r.messageId == m) = [r] := by
  induction l with
  | nil => exact Or.inl rfl
  | cons a t ih =>
    obtain ⟨ha, ht⟩ := List.pairwise_cons.mp h
    by_cases hc : a.chatId = c ∧ a.messageId = m
    · right
      refine ⟨a, ?_⟩
      have hnil : t.filter (fun r => r.chatId == c && r.messageId == m) = [] := by
        refine List.filter_eq_nil_iff.mpr ?_
        intro r hr
        have hne := ha r hr
        simp only [Bool.and_eq_true, beq_iff_eq, not_and]
        intro h1 h2
        exact hne ⟨hc.1.trans h1.symm, hc.2.trans h2.symm⟩
      simp [List.filter_cons, hc.1, hc.2, hnil]
    · have hfc : (a.chatId == c && a.messageId == m) = false := key_beq_false hc
      rcases ih ht with h0 | ⟨r, hr⟩
      · exact Or.inl (by simp [List.filter_cons, hfc, h0])
      · exact Or.inr ⟨r, by simp [List.filter_cons, hfc, hr]⟩

/-- Removing the rows of key `(c, i)` does not change the rows of a key
`(c, j)` with `j ≠ i`. -/
theorem filter_key_remove_other (rows : List MapRow) (c i j : Int) (hij : j ≠ i) :
    (rows.filter (fun r => !(r.chatId == c && r.messageId == i))).filter
        (fun r => r.chatId == c && r.messageId == j)
      = rows.filter (fun r => r.chatId == c && r.messageId == j) := by
  induction rows with
  | nil => rfl
  | cons a t ih =>
    simp only [List.filter_cons]
    by_cases hk : a.chatId = c ∧ a.messageId = i
    · have hki : (a.chatId == c && a.messageId == i) = true := key_beq_true hk.1 hk.2
      have hkj : (a.chatId == c && a.messageId == j) = false :=
        key_beq_false (fun hh => (Ne.symm hij) (hk.2.symm.trans hh.2))
      rw [hki, hkj]
      simpa using ih
    · have hfc : (a.chatId == c && a.messageId == i) = false := key_beq_false hk
      by_cases h2 : a.chatId = c ∧ a.messageId = j
      · have hkj : (a.chatId == c && a.messageId == j) = true := key_beq_true h2.1 h2.2
        rw [hfc, hkj]
        simpa [List.filter_cons, hkj] using ih
      · have hkj : (a.chatId == c && a.messageId == j) = false := key_beq_false h2
        rw [hfc, hkj]
        simpa [List.filter_cons, hkj] using ih

/-- `get_logger_message_id` under a resolved key filter. -/
theorem get_logger_message_id_eq (db : Db) (c m : Int) :
    get_logger_message_id db c m =
      match db.messageMap.filter (fun r => r.chatId == c && r.messageId == m) with
      | [] => .ok none
      | [r] => .ok (some r.loggerMessageId)
      | _ => .error .multipleResultsFound := rfl

/-- Full characterisation of the deletion loop against the starting state,
for an event with pairwise-distinct ids over a store with unique keys:
exactly the rows keyed by the event whose stored logger id is nonzero are
removed, the notification attempts are the stored nonzero logger ids of
the event's mapped ids in event order, and the delivered ones are those
whose send succeeded. -/
theorem pml_deleted_loop_char (chat : Int) (sendOk : Int → Bool) :
    ∀ (ids : List Int) (db : Db) (att del : List Int),
      UniqueMapKeys db.messageMap → ids.Nodup →
      pml_deleted_loop chat sendOk ids ⟨db, att, del⟩ = .ok
        ⟨{ db with messageMap := survivingMap db.messageMap chat ids },
          att ++ ids.filterMap (fun i => deletionOutcome db chat i),
          del ++ ids.filterMap (fun i => deliveredOutcome db chat sendOk i)⟩ := by
  intro ids
  induction ids with
  | nil =>
    intro db att del hu hnd
    simp [pml_deleted_loop, survivingMap]
  | cons i rest ih =>
    intro db att del hu hnd
    obtain ⟨hi, hrest⟩ := List.nodup_cons.mp hnd
    rcases uniqueMapKeys_key_cases db.messageMap chat i hu with h0 | ⟨r0, hr0⟩
    · -- no row for the key (chat, i): the step is a no-op
      have hlog : get_logger_message_id db chat i = .ok none := by
        rw [get_logger_message_id_eq, h0]
      have hstep : pml_deleted_step chat sendOk ⟨db, att, del⟩ i = .ok ⟨db, att, del⟩ := by
        simp [pml_deleted_step, hlog]
      have hout : deletionOutcome db chat i = none := by
        simp [deletionOutcome, hlog]
      have houtD : deliveredOutcome db chat sendOk i = none := by
        simp [deliveredOutcome, hout]
      have hmapeq : survivingMap db.messageMap chat rest
          = survivingMap db.messageMap chat (i :: rest) := by
        simp only [survivingMap]
        apply filter_congr_on
        intro x hx
        cases hc : x.chatId == chat with
        | false => simp [hc]
        | true =>
          cases hmi : x.messageId == i with
          | false => simp [hc, hmi, List.contains_cons, ne_of_beq_false hmi]
          | true =>
            exfalso
            have : x ∈ db.messageMap.filter
                (fun r => r.chatId == chat && r.messageId == i) :=
              List.mem_filter.mpr ⟨hx, by simp [hc, hmi]⟩
            rw [h0] at this
            exact absurd this (List.not_mem_nil x)
      simp only [pml_deleted_loop, hstep]
      rw [ih db att del hu hrest]
      simp only [List.filterMap_cons, hout, houtD, hmapeq]
    · -- a unique row r0 for the key (chat, i)
      have hmem := List.mem_filter.mp (hr0 ▸ List.mem_singleton_self r0)
      have hc0 : r0.chatId = chat := by
        have := hmem.2
        simp only [Bool.and_eq_true, beq_iff_eq] at this
        exact this.1
      have hm0 : r0.messageId = i := by
        have := hmem.2
        simp only [Bool.and_eq_true, beq_iff_eq] at this
        exact this.2
      have hlog : get_logger_message_id db chat i = .ok (some r0.loggerMessageId) := by
        rw [get_logger_message_id_eq, hr0]
      by_cases hz : r0.loggerMessageId = 0
      · -- the stored logger id is 0: `if logger_id:` skips it
        have hstep : pml_deleted_step chat sendOk ⟨db, att, del⟩ i
            = .ok ⟨db, att, del⟩ := by
          simp [pml_deleted_step, hlog, hz]
        have hout : deletionOutcome db chat i = none := by
          simp [deletionOutcome, hlog, hz]
        have houtD : deliveredOutcome db chat sendOk i = none := by
          simp [deliveredOutcome, hout]
        have hmapeq : survivingMap db.messageMap chat rest
            = survivingMap db.messageMap chat (i :: rest) := by
          simp only [survivingMap]
          apply filter_congr_on
          intro x hx
          cases hc : x.chatId == chat with
          | false => simp [hc]
          | true =>
            cases hmi : x.messageId == i with
            | false => simp [hc, hmi, List.contains_cons, ne_of_beq_false hmi]
            | true =>
              have hx0 : x = r0 := by
                have : x ∈ db.messageMap.filter
                    (fun r => r.chatId == chat && r.messageId == i) :=
                  List.mem_filter.mpr ⟨hx, by simp [hc, hmi]⟩
                rw [hr0] at this
                exact List.mem_singleton.mp this
              subst hx0
              simp [hc, hmi, hz, List.contains_cons]
        simp only [pml_deleted_loop, hstep]
        rw [ih db att del hu hrest]
        simp only [List.filterMap_cons, hout, houtD, hmapeq]
      · -- the stored logger id is nonzero: notify and remove
        have hz0 : (r0.loggerMessageId == 0) = false := beq_eq_false_iff_ne.mpr hz
        have hstep : pml_deleted_step chat sendOk ⟨db, att, del⟩ i
            = .ok ⟨remove_message_mapping db chat i,
                att ++ [r0.loggerMessageId],
                del ++ (if sendOk i then [r0.loggerMessageId] else [])⟩ := by
          simp [pml_deleted_step, hlog, hz0]
        have hu1 : UniqueMapKeys (remove_message_mapping db chat i).messageMap :=
          uniqueMapKeys_filter _ _ hu
        have hout : deletionOutcome db chat i = some r0.loggerMessageId := by
          simp [deletionOutcome, hlog, hz0]
        have houtD : deliveredOutcome db chat sendOk i
            = (if sendOk i then some r0.loggerMessageId else none) := by
          cases hs : sendOk i <;> simp [deliveredOutcome, hout, hs]
        have hframe : ∀ j ∈ rest,
            deletionOutcome (remove_message_mapping db chat i) chat j
              = deletionOutcome db chat j := by
          intro j hj
          have hji : j ≠ i := fun he => hi (he ▸ hj)
          simp only [deletionOutcome, get_logger_message_id_eq,
            remove_message_mapping]
          rw [filter_key_remove_other db.messageMap chat i j hji]
        have hframeD : ∀ j ∈ rest,
            deliveredOutcome (remove_message_mapping db chat i) chat sendOk j
              = deliveredOutcome db chat sendOk j := by
          intro j hj
          simp only [deliveredOutcome, hframe j hj]
        have hmapeq : survivingMap (remove_message_mapping db chat i).messageMap chat rest
            = survivingMap db.messageMap chat (i :: rest) := by
          simp only [survivingMap, remove_message_mapping]
          rw [List.filter_filter]
          apply filter_congr_on
          intro x hx
          cases hc : x.chatId == chat with
          | false => simp [hc]
          | true =>
            cases hmi : x.messageId == i with
            | false => simp [hc, hmi, List.contains_cons, ne_of_beq_false hmi]
            | true =>
              have hx0 : x = r0 := by
                have : x ∈ db.messageMap.filter
                    (fun r => r.chatId == chat && r.messageId == i) :=
                  List.mem_filter.mpr ⟨hx, by simp [hc, hmi]⟩
                rw [hr0] at this
                exact List.mem_singleton.mp this
              subst hx0
              simp [hc, hmi, hm0, hz, List.contains_cons]
        simp only [pml_deleted_loop, hstep]
        rw [ih (remove_message_mapping db chat i) (att ++ [r0.loggerMessageId])
          (del ++ (if sendOk i then [r0.loggerMessageId] else [])) hu1 hrest]
        simp only [List.filterMap_cons, hout, houtD, hmapeq,
          filterMap_congr_on _ _ rest hframe, filterMap_congr_on _ _ rest hframeD,
          List.append_assoc, List.singleton_append]
        cases hs : sendOk i <;> simp [remove_message_mapping]

/-- `is_temp_user` only rewrites the temporary table: the other three
tables are unchanged in its returned state. -/
theorem is_temp_user_frame (db : Db) (uid now : Int) (b : Bool) (db2 : Db)
    (h : is_temp_user db uid now = .ok (b, db2)) :
    db2.users = db.users ∧ db2.dialogs = db.dialogs ∧
      db2.messageMap = db.messageMap := by
  rw [is_temp_user_eq] at h
  split at h <;> simp_all
  · obtain ⟨h1, h2⟩ := h
    subst h2
    exact ⟨rfl, rfl, rfl⟩
  · obtain ⟨h1, h2⟩ := h
    subst h2
    exact ⟨rfl, rfl, rfl⟩

/-- If the incoming handler attempted the forward, the forward succeeded
with id `f`, and `(uid, msgId)` was not yet mapped, then the final state
records exactly the new correlation row at the end of the table. -/
theorem incoming_forwarded_map (pmlVar pmlTimeVar : Option String)
    (g uid msgId now f : Int) (db : Db) (r : IncomingResult)
    (hfresh : hasMapKey db.messageMap uid msgId = false)
    (hok : pml_incoming_handler pmlVar pmlTimeVar g true (some uid) msgId now
      (some f) db = .ok r)
    (hfwd : r.forwarded = true) :
    r.db.messageMap = db.messageMap ++ [⟨uid, msgId, f⟩] := by
  have hrec : ∀ db2 : Db, db2.messageMap = db.messageMap →
      (pml_record_forward db2 uid msgId (some f)).db.messageMap
        = db.messageMap ++ [⟨uid, msgId, f⟩] := by
    intro db2 hmap
    simp [pml_record_forward, add_message_mapping, hmap, hfresh]
  simp only [pml_incoming_handler, Bool.not_true, Bool.false_eq_true, if_false] at hok
  split at hok
  · -- relay disabled or no target: nothing is forwarded
    injection hok with h
    subst h
    simp at hfwd
  · split at hok
    · -- explicitly monitored
      injection hok with h
      subst h
      exact hrec db rfl
    · split at hok
      · -- observation window open
        split at hok
        · -- not a known dialog: first `is_temp_user` call
          split at hok
          · simp at hok
          · rename_i isTemp1 db1 heq1
            obtain ⟨hu1, hd1, hm1⟩ := is_temp_user_frame db uid now isTemp1 db1 heq1
            split at hok
            · -- brand-new contact: fresh window, then forward
              injection hok with h
              subst h
              exact hrec _ (by simp [add_temp_user, hm1])
            · -- live temporary entry: second `is_temp_user` call
              split at hok
              · simp at hok
              · rename_i isTemp2 db2 heq2
                obtain ⟨hu2, hd2, hm2⟩ := is_temp_user_frame db1 uid now isTemp2 db2 heq2
                split at hok
                · injection hok with h
                  subst h
                  exact hrec _ (hm2.trans hm1)
                · injection hok with h
                  subst h
                  simp at hfwd
        · -- known dialog: single `is_temp_user` call in the `elif`
          split at hok
          · simp at hok
          · rename_i isTemp2 db2 heq2
            obtain ⟨hu2, hd2, hm2⟩ := is_temp_user_frame db uid now isTemp2 db2 heq2
            split at hok
            · injection hok with h
              subst h
              exact hrec _ hm2
            · injection hok with h
              subst h
              simp at hfwd
      · -- window closed
        injection hok with h
        subst h
        simp at hfwd

/-- A key absent from the table filters to the empty row list. -/
theorem filter_key_eq_nil_of_not_hasMapKey (rows : List MapRow) (c m : Int)
    (h : hasMapKey rows c m = false) :
    rows.filter (fun r => r.chatId == c && r.messageId == m) = [] := by
  refine List.filter_eq_nil_iff.mpr ?_
  intro x hx
  simp only [hasMapKey, List.any_eq_false] at h
  exact h x hx

/-- Appending a row under a fresh key preserves key uniqueness. -/
theorem uniqueMapKeys_append_fresh (rows : List MapRow) (c m l : Int)
    (hu : UniqueMapKeys rows) (h : hasMapKey rows c m = false) :
    UniqueMapKeys (rows ++ [⟨c, m, l⟩]) := by
  rw [UniqueMapKeys, List.pairwise_append]
  refine ⟨hu, List.pairwise_singleton _ _, ?_⟩
  intro a ha b hb
  simp only [List.mem_singleton] at hb
  subst hb
  intro hab
  have hk : hasMapKey rows c m = true := by
    simp only [hasMapKey, List.any_eq_true]
    exact ⟨a, ha, by simp [hab.1, hab.2]⟩
  simp [hk] at h

/-! ## Claim theorems -/

/-- C10: reading either persisted toggle yields disabled exactly when the
stored variable is unset or is the exact string `"false"`; any other
stored value is treated as enabled. -/
theorem c10_toggle_parse (v : Option String) :
    (_is_pml_enabled v = false ↔ v = none ∨ v = some falseLit) ∧
    (_is_sdp_enabled v = false ↔ v = none ∨ v = some falseLit) := by
  cases v with
  | none => simp [_is_pml_enabled, _is_sdp_enabled]
  | some s => simp [_is_pml_enabled, _is_sdp_enabled, bne_eq_false_iff_eq]

/-- C2 counterexample: with the correlation `(1, 1) ↦ 5` stored, recording
`(1, 1) ↦ 6` raises an `IntegrityError` (duplicate primary key) instead of
silently replacing the stored correlation — the claim's "silently replaces
… and never raises" is false. -/
theorem c2_record_counterexample :
    add_message_mapping ⟨[], [], [], [⟨1, 1, 5⟩]⟩ 1 1 6 = .error .integrityError := rfl

/-- C2 amended: recording under a key that already has a stored
correlation fails with a duplicate-primary-key `IntegrityError` and does
not overwrite; recording under a fresh key inserts the row. -/
theorem c2_record_amended (db : Db) (c m l : Int) :
    (hasMapKey db.messageMap c m = true →
      add_message_mapping db c m l = .error .integrityError) ∧
    (hasMapKey db.messageMap c m = false →
      add_message_mapping db c m l =
        .ok { db with messageMap := db.messageMap ++ [⟨c, m, l⟩] }) := by
  constructor <;> intro h <;> simp [add_message_mapping, h]

/-- C2 amended, witness at a concrete store. -/
theorem c2_record_amended_witness :
    add_message_mapping ⟨[], [], [], [⟨7, 8, 9⟩]⟩ 7 8 1 = .error .integrityError ∧
    add_message_mapping ⟨[], [], [], []⟩ 7 8 1 = .ok ⟨[], [], [], [⟨7, 8, 1⟩]⟩ :=
  ⟨(c2_record_amended ⟨[], [], [], [⟨7, 8, 9⟩]⟩ 7 8 1).1 (by decide),
   (c2_record_amended ⟨[], [], [], []⟩ 7 8 1).2 (by decide)⟩

/-- C8 counterexample: adding contact `7` twice and removing the absent
contact `9` return the Python value `None` — no changed flag at all — so
the claim's "the second call … reports no change" and "each operation
reports whether it changed the set" are false. -/
theorem c8_report_counterexample :
    (add_monitored_user (add_monitored_user ⟨[], [], [], []⟩ 7).2 7).1 = none ∧
    (add_monitored_user (add_monitored_user ⟨[], [], [], []⟩ 7).2 7).1 ≠ some false ∧
    (remove_monitored_user ⟨[], [], [], []⟩ 9).1 = none ∧
    (remove_monitored_user ⟨[], [], [], []⟩ 9).1 ≠ some false := by decide

/-- C8 amended: `addMonitored(x)` called twice changes the monitored set
exactly once (a fresh id is appended once, and the second call leaves the
state unchanged), and `removeMonitored` of an absent id is a no-op — but
neither operation reports whether it changed: both return Python `None`. -/
theorem c8_idempotence_amended (db : Db) (x y : Int)
    (hx : x ∉ db.users) (hy : y ∉ db.users) :
    ((add_monitored_user db x).2.users = db.users ++ [x]) ∧
    (add_monitored_user (add_monitored_user db x).2 x).2 = (add_monitored_user db x).2 ∧
    ((add_monitored_user db x).1 = none) ∧
    (remove_monitored_user db y = (none, db)) := by
  refine ⟨?_, ?_, rfl, ?_⟩
  · simp [add_monitored_user, hx]
  · simp [add_monitored_user, hx]
  · have h : db.users.erase y = db.users := List.erase_of_not_mem hy
    simp [remove_monitored_user, h]

/-- C8 amended, witness: monitored set `[3]`, double add of `7`, removal of
the absent `9`. -/
theorem c8_idempotence_amended_witness :
    ((add_monitored_user ⟨[3], [], [], []⟩ 7).2.users = [3] ++ [7]) ∧
    (add_monitored_user (add_monitored_user ⟨[3], [], [], []⟩ 7).2 7).2
      = (add_monitored_user ⟨[3], [], [], []⟩ 7).2 ∧
    ((add_monitored_user ⟨[3], [], [], []⟩ 7).1 = none) ∧
    (remove_monitored_user ⟨[3], [], [], []⟩ 9 = (none, ⟨[3], [], [], []⟩)) :=
  c8_idempotence_amended ⟨[3], [], [], []⟩ 7 9 (by decide) (by decide)

/-- C4: a private message from an explicitly monitored sender is relayed
whenever relay is enabled and a relay target is configured — for every
store (hence regardless of the dialog snapshot and of any expired or
absent temporary entry) and every stored observation window. -/
theorem c4_monitored_precedence (pmlVar pmlTimeVar : Option String)
    (loggerGroupId userId msgId now : Int) (fwdResult : Option Int) (db : Db)
    (hen : _is_pml_enabled pmlVar = true) (hgr : loggerGroupId ≠ -100)
    (hmon : userId ∈ get_all_monitored_users db) :
    pml_incoming_handler pmlVar pmlTimeVar loggerGroupId true (some userId) msgId now
        fwdResult db
      = .ok (pml_record_forward db userId msgId fwdResult) ∧
    (pml_record_forward db userId msgId fwdResult).forwarded = true := by
  have hg : (loggerGroupId == -100) = false := beq_eq_false_iff_ne.mpr hgr
  constructor
  · simp [pml_incoming_handler, hen, hg, hmon]
  · unfold pml_record_forward
    cases fwdResult with
    | none => rfl
    | some f =>
      cases h : add_message_mapping db userId msgId f <;> simp [h]

/-- C4 witness: window unset, empty snapshot, no temporary entry — the
monitored contact `42` is still relayed. -/
theorem c4_monitored_precedence_witness :
    pml_incoming_handler (some trueLit) none 777 true (some 42) 1 0 (some 9)
        ⟨[42], [], [], []⟩
      = .ok (pml_record_forward ⟨[42], [], [], []⟩ 42 1 (some 9)) ∧
    (pml_record_forward ⟨[42], [], [], []⟩ 42 1 (some 9)).forwarded = true :=
  c4_monitored_precedence (some trueLit) none 777 42 1 0 (some 9) ⟨[42], [], [], []⟩
    rfl (by decide) (by decide)

/-- C1 counterexample: the state after Scenario A's first two messages is
`temp = [(42, 600)]`, `map = [(42,1,100), (42,2,101)]`; the third message
`(chat=42, id=3)` at `t=700` IS relayed (`forwarded = true`) — the lazy
purge drops the expired entry and, since `42` is still absent from the
dialog snapshot, the handler grants a fresh window `(42, 1300)` — whereas
the claim says this message is not relayed. -/
theorem c1_scenario_counterexample :
    pml_incoming_handler (some trueLit) (some tenLit) 777 true (some 42) 3 700 (some 102)
        ⟨[], [], [⟨42, 600⟩], [⟨42, 1, 100⟩, ⟨42, 2, 101⟩]⟩
      = .ok ⟨⟨[], [], [⟨42, 1300⟩], [⟨42, 1, 100⟩, ⟨42, 2, 101⟩, ⟨42, 3, 102⟩]⟩, true⟩ :=
  rfl

/-- C1 amended: Scenario A against the code — relay enabled
(`PML = "true"`), window `PML_TIME = "10"` minutes, contact not monitored
and not in the snapshot: the message at `t=0` is relayed and creates the
temporary entry `(uid, 600)`; the message at `t=300` is relayed with the
expiry unchanged; the message at `t=700` — after expiry — is relayed
AGAIN: the expired entry is purged and a fresh entry `(uid, 1300)` is
created, because the contact is still absent from the snapshot. -/
theorem c1_scenario_amended (uid f1 f2 f3 : Int) (us ds : List Int)
    (hmon : uid ∉ us) (hdlg : uid ∉ ds) :
    (pml_incoming_handler (some trueLit) (some tenLit) 777 true (some uid) 1 0 (some f1)
        ⟨us, ds, [], []⟩
      = .ok ⟨⟨us, ds, [⟨uid, 600⟩], [⟨uid, 1, f1⟩]⟩, true⟩) ∧
    (pml_incoming_handler (some trueLit) (some tenLit) 777 true (some uid) 2 300 (some f2)
        ⟨us, ds, [⟨uid, 600⟩], [⟨uid, 1, f1⟩]⟩
      = .ok ⟨⟨us, ds, [⟨uid, 600⟩], [⟨uid, 1, f1⟩, ⟨uid, 2, f2⟩]⟩, true⟩) ∧
    (pml_incoming_handler (some trueLit) (some tenLit) 777 true (some uid) 3 700 (some f3)
        ⟨us, ds, [⟨uid, 600⟩], [⟨uid, 1, f1⟩, ⟨uid, 2, f2⟩]⟩
      = .ok ⟨⟨us, ds, [⟨uid, 1300⟩], [⟨uid, 1, f1⟩, ⟨uid, 2, f2⟩, ⟨uid, 3, f3⟩]⟩, true⟩) := by
  have h1 : _is_pml_enabled (some trueLit) = true := rfl
  have h2 : _get_pml_time (some tenLit) = 10 := rfl
  refine ⟨?_, ?_, ?_⟩ <;>
    simp [pml_incoming_handler, get_all_monitored_users, is_known_dialog, is_temp_user,
      add_temp_user, pml_record_forward, add_message_mapping, hasMapKey, h1, h2,
      hmon, hdlg]

/-- C1 amended, witness: the concrete Scenario A run. -/
theorem c1_scenario_amended_witness :
    (pml_incoming_handler (some trueLit) (some tenLit) 777 true (some 42) 1 0 (some 100)
        ⟨[], [], [], []⟩
      = .ok ⟨⟨[], [], [⟨42, 600⟩], [⟨42, 1, 100⟩]⟩, true⟩) ∧
    (pml_incoming_handler (some trueLit) (some tenLit) 777 true (some 42) 2 300 (some 101)
        ⟨[], [], [⟨42, 600⟩], [⟨42, 1, 100⟩]⟩
      = .ok ⟨⟨[], [], [⟨42, 600⟩], [⟨42, 1, 100⟩, ⟨42, 2, 101⟩]⟩, true⟩) ∧
    (pml_incoming_handler (some trueLit) (some tenLit) 777 true (some 42) 3 700 (some 102)
        ⟨[], [], [⟨42, 600⟩], [⟨42, 1, 100⟩, ⟨42, 2, 101⟩]⟩
      = .ok ⟨⟨[], [], [⟨42, 1300⟩], [⟨42, 1, 100⟩, ⟨42, 2, 101⟩, ⟨42, 3, 102⟩]⟩, true⟩) :=
  c1_scenario_amended 42 100 101 102 [] [] (by decide) (by decide)

/-- C6 counterexample: relay message `(42, 1)` whose forward returns the id
`0`.  The disabled deletion event is a no-op as claimed, but after
re-enabling relay the replayed deletion neither notifies (no attempt) nor
clears the entry, because `if logger_id:` treats the stored id `0` like a
missing row — the claim's final clause is false. -/
theorem c6_replay_counterexample :
    (pml_incoming_handler (some trueLit) none 777 true (some 42) 1 0 (some 0)
        ⟨[42], [], [], []⟩
      = .ok ⟨⟨[42], [], [], [⟨42, 1, 0⟩]⟩, true⟩) ∧
    (pml_deleted_handler (some falseLit) 777 42 [1] (fun _ => true)
        ⟨[42], [], [], [⟨42, 1, 0⟩]⟩
      = .ok ⟨⟨[42], [], [], [⟨42, 1, 0⟩]⟩, [], []⟩) ∧
    (pml_deleted_handler (some trueLit) 777 42 [1] (fun _ => true)
        ⟨[42], [], [], [⟨42, 1, 0⟩]⟩
      = .ok ⟨⟨[42], [], [], [⟨42, 1, 0⟩]⟩, [], []⟩) :=
  ⟨rfl, rfl, rfl⟩

/-- C6 amended: (1) a deletion event arriving while relay is disabled or
no relay target is configured (group id `-100`) leaves the whole store
untouched and attempts nothing, for every store and event; (2) Scenario C,
provided the recorded relayed-message id is nonzero: relay `(42, 1)`,
disable relay — the deletion is a full no-op and the correlation remains —
then re-enable and replay the same deletion: the notification is attempted
and the entry cleared. -/
theorem c6_frame_amended :
    (∀ (pmlVar : Option String) (g chat : Int) (ids : List Int)
        (sendOk : Int → Bool) (db : Db),
      (_is_pml_enabled pmlVar = false ∨ g = -100) →
        pml_deleted_handler pmlVar g chat ids sendOk db = .ok ⟨db, [], []⟩) ∧
    (∀ (f : Int) (sendOk : Int → Bool), f ≠ 0 →
      (pml_incoming_handler (some trueLit) none 777 true (some 42) 1 0 (some f)
          ⟨[42], [], [], []⟩
        = .ok ⟨⟨[42], [], [], [⟨42, 1, f⟩]⟩, true⟩) ∧
      (pml_deleted_handler (some falseLit) 777 42 [1] sendOk
          ⟨[42], [], [], [⟨42, 1, f⟩]⟩
        = .ok ⟨⟨[42], [], [], [⟨42, 1, f⟩]⟩, [], []⟩) ∧
      (pml_deleted_handler (some trueLit) 777 42 [1] sendOk
          ⟨[42], [], [], [⟨42, 1, f⟩]⟩
        = .ok ⟨⟨[42], [], [], []⟩, [f], if sendOk 1 then [f] else []⟩)) := by
  constructor
  · intro pmlVar g chat ids sendOk db h
    rcases h with h | h
    · simp [pml_deleted_handler, h]
    · simp [pml_deleted_handler, h]
  · intro f sendOk hf
    have hf0 : (f == 0) = false := beq_eq_false_iff_ne.mpr hf
    have h1 : _is_pml_enabled (some trueLit) = true := rfl
    refine ⟨rfl, rfl, ?_⟩
    simp [pml_deleted_handler, pml_deleted_loop, pml_deleted_step,
      get_logger_message_id, remove_message_mapping, hf0, h1]

/-- C6 amended, witness: disabled no-op at a stored correlation and the
nonzero replay (`f = 5`) that notifies and clears. -/
theorem c6_frame_amended_witness :
    (pml_deleted_handler (some falseLit) 777 42 [1] (fun _ => true)
        ⟨[42], [], [], [⟨42, 1, 5⟩]⟩
      = .ok ⟨⟨[42], [], [], [⟨42, 1, 5⟩]⟩, [], []⟩) ∧
    (pml_deleted_handler (some trueLit) 777 42 [1] (fun _ => true)
        ⟨[42], [], [], [⟨42, 1, 5⟩]⟩
      = .ok ⟨⟨[42], [], [], []⟩, [5], [5]⟩) := by
  refine ⟨c6_frame_amended.1 (some falseLit) 777 42 [1] (fun _ => true)
      ⟨[42], [], [], [⟨42, 1, 5⟩]⟩ (Or.inl (by decide)), ?_⟩
  have h := (c6_frame_amended.2 5 (fun _ => true) (by decide)).2.2
  simpa using h

/-- C5 counterexample: the correlation `(1, 5) ↦ 0` exists, relay is
enabled and a target configured, yet the deletion of id `5` attempts no
notification and removes nothing — `if logger_id:` treats the stored id
`0` like a missing row, so the claim's "if a correlation exists … removed"
is false. -/
theorem c5_deletion_counterexample :
    pml_deleted_handler (some trueLit) 777 1 [5] (fun _ => true)
        ⟨[], [], [], [⟨1, 5, 0⟩]⟩
      = .ok ⟨⟨[], [], [], [⟨1, 5, 0⟩]⟩, [], []⟩ := rfl

/-- C5 amended: for a deletion event with pairwise-distinct ids, relay
enabled and a target configured, over a correlation table with unique
keys: for every deleted id, if a correlation with a NONZERO relayed id
exists, a notification is attempted (it appears in the attempts list) and
the entry is removed whether or not the send succeeded (the surviving
rows and the attempts do not depend on `sendOk`); if no correlation
exists — or the stored relayed id is `0`, which the handler's truthiness
test treats as absent — nothing happens for that id and no error is
raised. -/
theorem c5_deletion_amended (pmlVar : Option String) (g chat : Int)
    (ids : List Int) (sendOk : Int → Bool) (db : Db)
    (hen : _is_pml_enabled pmlVar = true) (hg : g ≠ -100)
    (hu : UniqueMapKeys db.messageMap) (hnd : ids.Nodup) :
    pml_deleted_handler pmlVar g chat ids sendOk db = .ok
      ⟨{ db with messageMap := survivingMap db.messageMap chat ids },
        ids.filterMap (fun i => deletionOutcome db chat i),
        ids.filterMap (fun i => deliveredOutcome db chat sendOk i)⟩ := by
  have hgf : (g == -100) = false := beq_eq_false_iff_ne.mpr hg
  have h := pml_deleted_loop_char chat sendOk ids db [] [] hu hnd
  simp only [pml_deleted_handler, hen, hgf, Bool.not_true, Bool.or_self,
    Bool.false_or, Bool.false_eq_true, if_false]
  simpa using h

/-- C5 amended, witness: ids `[5, 6, 8]` against rows `(1,5) ↦ 7` and
`(1,6) ↦ 0` — id `5` is notified and removed, the zero-id `6` and the
unmapped `8` are left alone. -/
theorem c5_deletion_amended_witness :
    pml_deleted_handler (some trueLit) 777 1 [5, 6, 8] (fun i => i == 5)
        ⟨[], [], [], [⟨1, 5, 7⟩, ⟨1, 6, 0⟩]⟩
      = .ok ⟨⟨[], [], [], [⟨1, 6, 0⟩]⟩, [7], [7]⟩ :=
  c5_deletion_amended (some trueLit) 777 1 [5, 6, 8] (fun i => i == 5)
    ⟨[], [], [], [⟨1, 5, 7⟩, ⟨1, 6, 0⟩]⟩ rfl (by decide) (by decide) (by decide)

/-- C3 counterexample, at two concrete inputs.  (1) With a stale
correlation `(42, 1) ↦ 5` already stored, the monitored contact `42`'s
message `1` is relayed again with the new id `6`; the mapping insert
raises (duplicate key), the `except` swallows it, and the lookup still
returns `5`, not the relayed `6`.  (2) A relay whose forward returns id
`0` records `(42, 1) ↦ 0`; reconciling the deletion then removes nothing
and the lookup does not return "nothing" afterwards. -/
theorem c3_roundtrip_counterexample :
    (pml_incoming_handler (some trueLit) none 777 true (some 42) 1 0 (some 6)
        ⟨[42], [], [], [⟨42, 1, 5⟩]⟩
      = .ok ⟨⟨[42], [], [], [⟨42, 1, 5⟩]⟩, true⟩) ∧
    ¬(get_logger_message_id ⟨[42], [], [], [⟨42, 1, 5⟩]⟩ 42 1 = .ok (some 6)) ∧
    (pml_incoming_handler (some trueLit) none 777 true (some 42) 1 0 (some 0)
        ⟨[42], [], [], []⟩
      = .ok ⟨⟨[42], [], [], [⟨42, 1, 0⟩]⟩, true⟩) ∧
    (pml_deleted_handler (some trueLit) 777 42 [1] (fun _ => true)
        ⟨[42], [], [], [⟨42, 1, 0⟩]⟩
      = .ok ⟨⟨[42], [], [], [⟨42, 1, 0⟩]⟩, [], []⟩) ∧
    ¬(get_logger_message_id ⟨[42], [], [], [⟨42, 1, 0⟩]⟩ 42 1 = .ok none) := by
  refine ⟨rfl, ?_, rfl, rfl, ?_⟩
  · intro h
    rw [show get_logger_message_id ⟨[42], [], [], [⟨42, 1, 5⟩]⟩ 42 1
      = .ok (some 5) from rfl] at h
    simp at h
  · intro h
    rw [show get_logger_message_id ⟨[42], [], [], [⟨42, 1, 0⟩]⟩ 42 1
      = .ok (some 0) from rfl] at h
    simp at h

/-- C3 amended: for every message relayed successfully (forward attempted
and returning a NONZERO id `f`) whose key `(uid, msgId)` was not already
mapped, over a table with unique keys: immediately after the relay the
lookup returns `f`, and reconciling the deletion event for that message
notifies (`[f]` attempted) and restores the correlation table to its state
before the relay, after which the lookup returns nothing. -/
theorem c3_roundtrip_amended (pmlVar pmlTimeVar : Option String)
    (g uid msgId now f : Int) (db : Db) (r : IncomingResult) (sendOk : Int → Bool)
    (hen : _is_pml_enabled pmlVar = true) (hg : g ≠ -100)
    (hu : UniqueMapKeys db.messageMap)
    (hfresh : hasMapKey db.messageMap uid msgId = false)
    (hf : f ≠ 0)
    (hok : pml_incoming_handler pmlVar pmlTimeVar g true (some uid) msgId now
      (some f) db = .ok r)
    (hfwd : r.forwarded = true) :
    get_logger_message_id r.db uid msgId = .ok (some f) ∧
    pml_deleted_handler pmlVar g uid [msgId] sendOk r.db
      = .ok ⟨{ r.db with messageMap := db.messageMap }, [f],
          if sendOk msgId then [f] else []⟩ ∧
    get_logger_message_id { r.db with messageMap := db.messageMap } uid msgId
      = .ok none := by
  have hmap := incoming_forwarded_map pmlVar pmlTimeVar g uid msgId now f db r
    hfresh hok hfwd
  have hnil := filter_key_eq_nil_of_not_hasMapKey db.messageMap uid msgId hfresh
  have hrow : ((⟨uid, msgId, f⟩ : MapRow).chatId == uid &&
      (⟨uid, msgId, f⟩ : MapRow).messageId == msgId) = true := by simp
  have hlook1 : get_logger_message_id r.db uid msgId = .ok (some f) := by
    rw [get_logger_message_id_eq, hmap, List.filter_append, hnil]
    simp [hrow]
  refine ⟨hlook1, ?_, ?_⟩
  · have hu2 : UniqueMapKeys r.db.messageMap := by
      rw [hmap]; exact uniqueMapKeys_append_fresh db.messageMap uid msgId f hu hfresh
    have hchar := pml_deleted_loop_char uid sendOk [msgId] r.db [] [] hu2 (by simp)
    have hsurv : survivingMap r.db.messageMap uid [msgId] = db.messageMap := by
      rw [survivingMap, hmap, List.filter_append]
      have h1 : db.messageMap.filter (fun x =>
          !(x.chatId == uid && [msgId].contains x.messageId &&
            x.loggerMessageId != 0)) = db.messageMap := by
        refine List.filter_eq_self.mpr ?_
        intro x hx
        simp only [hasMapKey, List.any_eq_false] at hfresh
        have hxk := hfresh x hx
        cases hc : x.chatId == uid with
        | false => simp [hc]
        | true =>
          cases hm : x.messageId == msgId with
          | false => simp [hc, hm, List.contains_cons, ne_of_beq_false hm]
          | true => exact absurd (by simp [hc, hm]) hxk
      have h2 : ([⟨uid, msgId, f⟩] : List MapRow).filter (fun x =>
          !(x.chatId == uid && [msgId].contains x.messageId &&
            x.loggerMessageId != 0)) = [] := by
        have hf0 : ((f == 0) = false) := beq_eq_false_iff_ne.mpr hf
        simp [List.filter_cons, List.contains_cons, hf0, bne]
      rw [h1, h2, List.append_nil]
    have hout : deletionOutcome r.db uid msgId = some f := by
      have hf0 : ((f == 0) = false) := beq_eq_false_iff_ne.mpr hf
      simp [deletionOutcome, hlook1, hf0]
    have houtD : deliveredOutcome r.db uid sendOk msgId
        = (if sendOk msgId then some f else none) := by
      cases hs : sendOk msgId <;> simp [deliveredOutcome, hout, hs]
    have hgf : (g == -100) = false := beq_eq_false_iff_ne.mpr hg
    rw [pml_deleted_handler]
    rw [hen]
    simp only [hgf, Bool.not_true, Bool.or_self, Bool.false_or, Bool.false_eq_true,
      if_false]
    rw [hchar]
    simp only [List.filterMap_cons, List.filterMap_nil, hout, houtD, hsurv]
    cases hs : sendOk msgId <;> simp
  · rw [get_logger_message_id_eq]
    simp only []
    rw [show ({ r.db with messageMap := db.messageMap } : Db).messageMap
      = db.messageMap from rfl]
    rw [hnil]

/-- C3 amended, witness: monitored contact `42`, fresh store, forward id
`9`, then the deletion of message `1`. -/
theorem c3_roundtrip_amended_witness :
    get_logger_message_id ⟨[42], [], [], [⟨42, 1, 9⟩]⟩ 42 1 = .ok (some 9) ∧
    pml_deleted_handler (some trueLit) 777 42 [1] (fun _ => true)
        ⟨[42], [], [], [⟨42, 1, 9⟩]⟩
      = .ok ⟨⟨[42], [], [], []⟩, [9], [9]⟩ ∧
    get_logger_message_id ⟨[42], [], [], []⟩ 42 1 = .ok none :=
  c3_roundtrip_amended (some trueLit) none 777 42 1 0 9
    ⟨[42], [], [], []⟩ ⟨⟨[42], [], [], [⟨42, 1, 9⟩]⟩, true⟩ (fun _ => true)
    rfl (by decide) (by decide) (by decide) (by decide) rfl rfl

/-- C9: a manual reply whose full text exactly equals one configured
trigger word — configured words are stored stripped and nonempty — and
which does not begin with a command prefix character triggers capture of
the fetched replied-to message, whatever the stored `SDP` toggle holds;
and the Scenario D reply `"save please"` against the configured word
`"save"` does not trigger. -/
theorem c9_trigger_exact (sdpToggle : Option String) (w : String)
    (words : List String) (hs : pyStrip w = w) (hne : w ≠ "")
    (hcmd : startsWithCmdChar w = false) (hmem : w ∈ words) :
    sdp_manual_handler sdpToggle true w words true = true ∧
    sdp_manual_handler sdpToggle true savePleaseLit [saveLit] true = false := by
  constructor
  · have hwe : (w == "") = false := beq_eq_false_iff_ne.mpr hne
    have hemp : words.isEmpty = false := by
      cases words with
      | nil => exact absurd hmem (by simp)
      | cons a l => rfl
    simp [sdp_manual_handler, hs, hwe, hcmd, hemp, hmem]
  · rfl

/-- C9 witness: trigger word `"save"` configured, global toggle stored as
`"false"` (capture off) — the exact reply still triggers; `"save please"`
does not. -/
theorem c9_trigger_exact_witness :
    sdp_manual_handler (some falseLit) true saveLit [saveLit] true = true ∧
    sdp_manual_handler (some falseLit) true savePleaseLit [saveLit] true = false :=
  c9_trigger_exact (some falseLit) saveLit [saveLit] rfl (by decide) rfl (by decide)

/-- C7: on a temporary table with at most one row per contact (the shape
`add_temp_user` maintains): upsert of `(userId, e)` replaces — afterwards
the rows of `userId` are exactly `[(userId, e)]`, every other contact's
rows are untouched, and the one-row-per-contact invariant still holds; the
membership check purges first — a row survives it exactly when it is not
strictly expired — and answers `true` iff the contact has a non-expired
entry. -/
theorem c7_temp_store_invariant (db : Db) (userId e now : Int)
    (hinv : OnePerUser db.tempUsers) :
    (tempRowsFor (add_temp_user db userId e).tempUsers userId = [⟨userId, e⟩]) ∧
    (∀ v, v ≠ userId →
      tempRowsFor (add_temp_user db userId e).tempUsers v = tempRowsFor db.tempUsers v) ∧
    OnePerUser (add_temp_user db userId e).tempUsers ∧
    (∃ b db2, is_temp_user db userId now = .ok (b, db2) ∧
      (∀ r, r ∈ db2.tempUsers ↔ r ∈ db.tempUsers ∧ ¬(r.expiry < now)) ∧
      (b = true ↔ ∃ r ∈ db.tempUsers, r.userId = userId ∧ ¬(r.expiry < now))) := by
  refine ⟨?_, ?_, ?_, ?_⟩
  · simp only [tempRowsFor, add_temp_user, List.filter_append,
      filter_userId_of_filter_ne]
    simp
  · intro v hv
    simp only [tempRowsFor, add_temp_user, List.filter_append,
      filter_userId_of_filter_ne_other db.tempUsers userId v hv]
    have hbv : ((⟨userId, e⟩ : TempRow).userId == v) = false :=
      beq_eq_false_iff_ne.mpr (Ne.symm hv)
    simp [hbv]
  · simp only [add_temp_user]
    rw [OnePerUser, List.pairwise_append]
    refine ⟨onePerUser_filter _ _ hinv, List.pairwise_singleton _ _, ?_⟩
    intro a ha b hb
    simp only [List.mem_filter] at ha
    simp only [List.mem_singleton] at hb
    subst hb
    simpa using ha.2
  · have hp : OnePerUser (db.tempUsers.filter (fun r => !decide (r.expiry < now))) :=
      onePerUser_filter _ _ hinv
    rcases onePerUser_userId_cases _ userId hp with h0 | ⟨r, hr⟩
    · refine ⟨false,
        { db with tempUsers := db.tempUsers.filter (fun r => !decide (r.expiry < now)) },
        ?_, ?_, ?_⟩
      · rw [is_temp_user_eq, h0]
      · intro r
        simp [List.mem_filter]
      · simp only [Bool.false_eq_true, false_iff]
        rintro ⟨r, hr, hu, hl⟩
        have : r ∈ List.filter (fun r => r.userId == userId)
            (db.tempUsers.filter (fun s => !decide (s.expiry < now))) := by
          simp [List.mem_filter, hr, hu, hl]
        rw [h0] at this
        exact absurd this (List.not_mem_nil r)
    · refine ⟨true,
        { db with tempUsers := db.tempUsers.filter (fun r => !decide (r.expiry < now)) },
        ?_, ?_, ?_⟩
      · rw [is_temp_user_eq, hr]
      · intro s
        simp [List.mem_filter]
      · simp only [eq_self_iff_true, true_iff]
        have hrm : r ∈ List.filter (fun r => r.userId == userId)
            (db.tempUsers.filter (fun s => !decide (s.expiry < now))) := by
          rw [hr]; exact List.mem_singleton_self r
        simp only [List.mem_filter] at hrm
        exact ⟨r, by simpa using hrm.1.1, by simpa using hrm.2,
          by simpa using hrm.1.2⟩

/-- C7 witness: table `[(5, 10)]`, upsert `(5, 99)`, check at `now = 3`. -/
theorem c7_temp_store_invariant_witness :
    tempRowsFor (add_temp_user ⟨[], [], [⟨5, 10⟩], []⟩ 5 99).tempUsers 5 = [⟨5, 99⟩] ∧
    OnePerUser (add_temp_user ⟨[], [], [⟨5, 10⟩], []⟩ 5 99).tempUsers :=
  ⟨(c7_temp_store_invariant ⟨[], [], [⟨5, 10⟩], []⟩ 5 99 3 (by decide)).1,
   (c7_temp_store_invariant ⟨[], [], [⟨5, 10⟩], []⟩ 5 99 3 (by decide)).2.2.1⟩

end PML
